import Mathlib

/-!
Verification development for the CacheXS library (src/src/index.ts), a
namespaced cache layer over a Redis-compatible key-value store.

Modelling conventions:
* Keys, stored payloads and patterns are `List Char` (`Str`), so that every
  operation is executable and decidable.
* The store (the Redis collaborator) is an association list from full keys to
  entries `⟨payload, optional ttl⟩`; its primitives (`rget`, `rsetEx`, `rdel`,
  `rkeys`, `rttl`, ...) model the Redis commands the library calls
  (GET, SET .. EX, DEL, KEYS, TTL, ...).  `rkeys` uses glob matching
  (`globMatch`), as the Redis KEYS command does.
* JavaScript values flowing through the library are modelled by `Val`
  (null, booleans, integers, strings, and `vobj` for structured
  objects/arrays, which the library only ever passes to `JSON.stringify`).
  `JSON.parse` and `JSON.stringify` are external collaborators; the
  operations are parameterised over `parse : Str → Option Val`
  (`none` models a thrown parse error) and `stringify : Val → Str`.
  Concrete instances `jsonParseSimple` / `stringifySimple`, agreeing with
  the real functions on the payloads used, serve for closed evaluations.
* Each method returns a `Res α`: the returned value, the resulting store
  state, the trace `cmds` of store commands issued, and the debug lines
  `logs` printed via console.debug.  Exceptions of a primitive are modelled
  with `Except` in the returned value.
-/

namespace CacheXS

abbrev Str := List Char

/-- JavaScript values handled by the library: null, booleans, numbers
(modelled as integers; the library only ever treats them opaquely or via
Redis INCR/DECR which is integral), strings, and structured values
(objects/arrays), kept opaque since the code only passes them to
JSON.stringify. -/
inductive Val where
  | vnull : Val
  | vbool : Bool → Val
  | vnum : Int → Val
  | vstr : Str → Val
  | vobj : Str → Val
deriving DecidableEq, Repr

/-- JavaScript truthiness of a value (`if (value)`). -/
def truthyVal : Val → Bool
  | .vnull => false
  | .vbool b => b
  | .vnum n => n != 0
  | .vstr s => !s.isEmpty
  | .vobj _ => true

/-- JavaScript truthiness of a possibly-null value, `none` being JS null. -/
def truthyOpt : Option Val → Bool
  | none => false
  | some v => truthyVal v

/-- `typeof value === 'object'` — true for null (a JavaScript quirk) and for
structured values, false for booleans, numbers and strings. -/
def typeofObject : Val → Bool
  | .vnull => true
  | .vobj _ => true
  | _ => false

/-- Decimal rendering of a natural number, as `Number.prototype.toString`. -/
def natToStr (n : Nat) : Str := Nat.toDigits 10 n

/-- Decimal rendering of an integer. -/
def intToStr (i : Int) : Str :=
  if i < 0 then '-' :: natToStr i.natAbs else natToStr i.natAbs

/-- `value.toString()` for primitive values; `vnull` renders as the empty
string because the only reach of this function on null in the source is the
optional-chain `value?.toString() ?? ''`, which yields `''`.  (`vobj` is
unreachable on every call site: structured values take the
`JSON.stringify` branch.) -/
def jsToString : Val → Str
  | .vnull => []
  | .vbool true => "true".toList
  | .vbool false => "false".toList
  | .vnum n => intToStr n
  | .vstr s => s
  | .vobj r => r

/-- Payload written by `set`:
`typeof value === 'object' ? JSON.stringify(value) : value?.toString() ?? ''`.
Note null takes the stringify branch here (typeof null is 'object'). -/
def serializeSet (stringify : Val → Str) (v : Val) : Str :=
  if typeofObject v then stringify v else jsToString v

/-- Payload written by `setForever`:
`typeof value === 'object' && value !== null ? JSON.stringify(value) : value?.toString() ?? ''`. -/
def serializeForever (stringify : Val → Str) (v : Val) : Str :=
  if typeofObject v && !(v == Val.vnull) then stringify v else jsToString v

/-- A stored entry: raw payload plus optional remaining time to live
(`none` = no expiry). -/
structure Entry where
  val : Str
  ttl : Option Nat
deriving DecidableEq, Repr

/-- The Redis store, as an association list from full keys to entries. -/
abbrev Store := List (Str × Entry)

/-- Redis GET. -/
def rget (st : Store) (k : Str) : Option Str :=
  (st.lookup k).map Entry.val

/-- Redis SET with the given payload and optional EX expiry: replaces the
entry for `k` if present (including its ttl), otherwise appends a fresh one. -/
def rsetE (st : Store) (k : Str) (en : Entry) : Store :=
  match st with
  | [] => [(k, en)]
  | p :: rest => if p.1 = k then (k, en) :: rest else p :: rsetE rest k en

/-- Redis DEL of a single key. -/
def rdel (st : Store) (k : Str) : Store :=
  st.filter (fun p => !(p.1 == k))

/-- Redis TTL: -2 when the key is absent, -1 when it has no expiry,
otherwise the remaining seconds. -/
def rttl (st : Store) (k : Str) : Int :=
  match st.lookup k with
  | none => -2
  | some en => match en.ttl with
    | none => -1
    | some n => (n : Int)

/-- Redis glob matching (`*` any sequence, `?` any single character,
other characters literally), used by the KEYS and SCAN commands. -/
def globMatch : Str → Str → Bool
  | [], [] => true
  | [], _ :: _ => false
  | '*' :: ps, [] => globMatch ps []
  | '*' :: ps, c :: s => globMatch ps (c :: s) || globMatch ('*' :: ps) s
  | '?' :: _, [] => false
  | '?' :: ps, _ :: s => globMatch ps s
  | _ :: _, [] => false
  | p :: ps, c :: s => p == c && globMatch ps s
termination_by pat s => (pat.length, s.length)

/-- Redis KEYS: every key of the store matching the glob pattern. -/
def rkeys (st : Store) (pat : Str) : List Str :=
  (st.map Prod.fst).filter (fun k => globMatch pat k)

/-- Redis EXPIRE: absent key untouched; a zero (or, in Redis, negative)
ttl deletes the key immediately; otherwise the ttl is overwritten. -/
def rexpire (st : Store) (k : Str) (e : Nat) : Store :=
  match st.lookup k with
  | none => st
  | some en => if e = 0 then rdel st k else rsetE st k ⟨en.val, some e⟩

/-- Strict decimal integer parse, as Redis applies to INCR/DECR operands. -/
def parseDecInt (s : Str) : Option Int :=
  let digits (ds : Str) : Option Nat :=
    if ds.isEmpty || !ds.all Char.isDigit then none
    else some (ds.foldl (fun a c => a * 10 + (c.toNat - 48)) 0)
  match s with
  | '-' :: rest => (digits rest).map (fun n => -(n : Int))
  | _ => (digits s).map (fun n => (n : Int))

/-- Redis INCR: an absent key is created (no expiry) with value 1; a
non-integer payload raises an error; otherwise the stored integer is
bumped by one, keeping the ttl. -/
def rincr (st : Store) (k : Str) : Except Unit (Int × Store) :=
  match st.lookup k with
  | none => .ok (1, rsetE st k ⟨intToStr 1, none⟩)
  | some en =>
    match parseDecInt en.val with
    | none => .error ()
    | some i => .ok (i + 1, rsetE st k ⟨intToStr (i + 1), en.ttl⟩)

/-- Redis DECR, symmetric to `rincr`. -/
def rdecr (st : Store) (k : Str) : Except Unit (Int × Store) :=
  match st.lookup k with
  | none => .ok (-1, rsetE st k ⟨intToStr (-1), none⟩)
  | some en =>
    match parseDecInt en.val with
    | none => .error ()
    | some i => .ok (i - 1, rsetE st k ⟨intToStr (i - 1), en.ttl⟩)

/-- The store commands the library can issue, recorded as a trace by every
operation.  `flushAll` (global flush) is in the vocabulary so that we can
state that no operation ever issues it. -/
inductive Cmd where
  | getC : Str → Cmd
  | setExC : Str → Str → Nat → Cmd
  | setC : Str → Str → Cmd
  | delC : Str → Cmd
  | existsC : Str → Cmd
  | keysC : Str → Cmd
  | ttlC : Str → Cmd
  | expireC : Str → Nat → Cmd
  | incrC : Str → Cmd
  | decrC : Str → Cmd
  | scanC : Str → Str → Nat → Cmd
  | flushAll : Cmd
deriving DecidableEq, Repr

/-- Instance configuration: namespace, default expiry (seconds), debug flag. -/
structure Config where
  ns : Str
  expiresIn : Nat
  enableDebug : Bool
deriving DecidableEq, Repr

/-- The optional constructor arguments of `new CacheXS(config)`; `none`
means the field was omitted. -/
structure ConfigArgs where
  ns : Option Str
  expiresIn : Option Nat
  enableDebug : Option Bool
deriving DecidableEq, Repr

/-- The constructor's destructuring defaults:
`namespace = 'cacheXS'`, `expiresIn = 300`, `enableDebug = false`. -/
def mkCacheXS (a : ConfigArgs) : Config :=
  ⟨a.ns.getD "cacheXS".toList, a.expiresIn.getD 300, a.enableDebug.getD false⟩

/-- `new CacheXS()` — a wholly defaulted configuration. -/
def defaultConfig : Config := mkCacheXS ⟨none, none, none⟩

/-- Outcome of one method call: returned value, resulting store state,
trace of store commands issued, debug lines printed. -/
structure Res (α : Type) where
  val : α
  store : Store
  cmds : List Cmd
  logs : List Str
deriving Repr

/-- The debug-guarded `console.debug(msg)`. -/
def dbg (cfg : Config) (msg : Str) : List Str :=
  if cfg.enableDebug then [msg] else []

/-- `concatenateKey` (src/src/index.ts:171-182): empty namespace returns the
key as is; a key already starting with the namespace prefix is returned
unchanged; otherwise the prefix is prepended. -/
def concatenateKey (cfg : Config) (key : Str) : Str :=
  if cfg.ns.length = 0 then key
  else
    let namespacePrefix := cfg.ns ++ [':']
    if namespacePrefix.isPrefixOf key then key
    else namespacePrefix ++ key

/-- JavaScript `s.replace(pat, '')` for a plain-string pattern: removes the
first occurrence of `pat`, leaving the string unchanged when there is none. -/
def replaceFirst (pat : Str) : Str → Str
  | [] => []
  | c :: s =>
    if pat.isPrefixOf (c :: s) then (c :: s).drop pat.length
    else c :: replaceFirst pat s

/-- The namespace stripping applied to each key reported by `keys()` and
`scan()` (src/src/index.ts:607-609, 640-642):
`ns.length > 0 ? key.replace(ns + ':', '') : key`. -/
def decomposeKey (cfg : Config) (key : Str) : Str :=
  if cfg.ns.length > 0 then replaceFirst (cfg.ns ++ [':']) key else key

/-- `null` returned from `JSON.parse` is the JavaScript value null, which a
caller of `get` cannot tell apart from the absent-key result. -/
def denull : Val → Option Val
  | .vnull => none
  | v => some v

/-- `get` (src/src/index.ts:197-216): namespaces the key, fetches the raw
payload; a truthy (non-empty) payload is JSON-parsed, falling back to the
raw string when the parse throws; a missing (or empty) payload yields null. -/
def get (parse : Str → Option Val) (cfg : Config) (st : Store) (key : Str) :
    Res (Option Val) :=
  let kn := concatenateKey cfg key
  let value := rget st kn
  let logs := dbg cfg ("CacheXS -> Get -> ".toList ++ kn)
  match value with
  | some raw =>
    if !raw.isEmpty then
      match parse raw with
      | some v => ⟨denull v, st, [Cmd.getC kn], logs⟩
      | none => ⟨some (.vstr raw), st, [Cmd.getC kn], logs⟩
    else ⟨none, st, [Cmd.getC kn], logs⟩
  | none => ⟨none, st, [Cmd.getC kn], logs⟩

/-- `set` (src/src/index.ts:234-251): namespaces the key, serialises the
value, writes it with `SET .. EX expiresIn`, returns the store's 'OK'. -/
def set (stringify : Val → Str) (cfg : Config) (st : Store) (key : Str)
    (value : Val) (expiresIn : Nat) : Res (Option Str) :=
  let kn := concatenateKey cfg key
  let pv := serializeSet stringify value
  ⟨some "OK".toList, rsetE st kn ⟨pv, some expiresIn⟩, [Cmd.setExC kn pv expiresIn],
    dbg cfg ("CacheXS -> Set -> ".toList ++ kn)⟩

/-- `setForever` (src/src/index.ts:267-282): like `set` but writes with a
plain SET (no expiry) and a slightly different serialisation of null. -/
def setForever (stringify : Val → Str) (cfg : Config) (st : Store) (key : Str)
    (value : Val) : Res Unit :=
  let kn := concatenateKey cfg key
  let pv := serializeForever stringify value
  ⟨(), rsetE st kn ⟨pv, none⟩, [Cmd.setC kn pv],
    dbg cfg ("CacheXS -> Set Forever -> ".toList ++ kn)⟩

/-- `exists` (src/src/index.ts:536-545). -/
def existsQ (cfg : Config) (st : Store) (key : Str) : Res Bool :=
  let kn := concatenateKey cfg key
  let isExists := (rget st kn).isSome
  ⟨isExists, st, [Cmd.existsC kn], dbg cfg ("CacheXS -> Has -> ".toList ++ kn)⟩

/-- `missing` (src/src/index.ts:558-567). -/
def missing (cfg : Config) (st : Store) (key : Str) : Res Bool :=
  let kn := concatenateKey cfg key
  let isExists := (rget st kn).isSome
  ⟨!isExists, st, [Cmd.existsC kn], dbg cfg ("CacheXS -> Missing -> ".toList ++ kn)⟩

/-- `setIfNotExists` (src/src/index.ts:284-294): namespaces the key, asks
`exists` (which namespaces it again), returns the string 'EXIST' when the
key is present, otherwise delegates to `set`.  A check-then-set issued from
this layer, not a store-level conditional write. -/
def setIfNotExists (stringify : Val → Str) (cfg : Config) (st : Store)
    (key : Str) (value : Val) (expiresIn : Nat) : Res (Option Str) :=
  let kn := concatenateKey cfg key
  let rEx := existsQ cfg st kn
  if rEx.val then
    ⟨some "EXIST".toList, rEx.store, rEx.cmds, rEx.logs⟩
  else
    let rSet := set stringify cfg rEx.store key value expiresIn
    ⟨rSet.val, rSet.store, rEx.cmds ++ rSet.cmds, rEx.logs ++ rSet.logs⟩

/-- `getOrSet` (src/src/index.ts:307-327): reads through `get` (on the
already-namespaced key); a truthy existing value is returned as is,
otherwise the fallback is written through `set` and returned. -/
def getOrSet (parse : Str → Option Val) (stringify : Val → Str) (cfg : Config)
    (st : Store) (key : Str) (value : Val) (expiresIn : Nat) : Res Val :=
  let kn := concatenateKey cfg key
  let rGet := get parse cfg st kn
  let logs1 := rGet.logs ++ dbg cfg ("CacheXS -> Get -> ".toList ++ kn)
  match rGet.val with
  | some existing =>
    if truthyVal existing then ⟨existing, rGet.store, rGet.cmds, logs1⟩
    else
      let rSet := set stringify cfg rGet.store key value expiresIn
      ⟨value, rSet.store, rGet.cmds ++ rSet.cmds,
        logs1 ++ rSet.logs ++ dbg cfg ("CacheXS -> Set -> ".toList ++ kn)⟩
  | none =>
    let rSet := set stringify cfg rGet.store key value expiresIn
    ⟨value, rSet.store, rGet.cmds ++ rSet.cmds,
      logs1 ++ rSet.logs ++ dbg cfg ("CacheXS -> Set -> ".toList ++ kn)⟩

/-- `getOrSetForever` (src/src/index.ts:342-361): like `getOrSet`, but on a
miss it writes the fallback through `set` — i.e. with the instance's
default expiry, despite the function's name. -/
def getOrSetForever (parse : Str → Option Val) (stringify : Val → Str)
    (cfg : Config) (st : Store) (key : Str) (fallbackValue : Val) : Res Val :=
  let kn := concatenateKey cfg key
  let rGet := get parse cfg st kn
  let logs1 := rGet.logs ++ dbg cfg ("CacheXS -> Get -> ".toList ++ kn)
  match rGet.val with
  | some existing =>
    if truthyVal existing then ⟨existing, rGet.store, rGet.cmds, logs1⟩
    else
      let rSet := set stringify cfg rGet.store key fallbackValue cfg.expiresIn
      ⟨fallbackValue, rSet.store, rGet.cmds ++ rSet.cmds,
        logs1 ++ rSet.logs ++ dbg cfg ("CacheXS -> Set Forever -> ".toList ++ kn)⟩
  | none =>
    let rSet := set stringify cfg rGet.store key fallbackValue cfg.expiresIn
    ⟨fallbackValue, rSet.store, rGet.cmds ++ rSet.cmds,
      logs1 ++ rSet.logs ++ dbg cfg ("CacheXS -> Set Forever -> ".toList ++ kn)⟩

/-- `increment` (src/src/index.ts:374-383); a rejected INCR (non-integer
payload) propagates as an error, skipping the debug line. -/
def increment (cfg : Config) (st : Store) (key : Str) : Res (Except Unit Int) :=
  let kn := concatenateKey cfg key
  match rincr st kn with
  | .ok (v, st') =>
    ⟨.ok v, st', [Cmd.incrC kn], dbg cfg ("CacheXS -> Increment -> ".toList ++ kn)⟩
  | .error e => ⟨.error e, st, [Cmd.incrC kn], []⟩

/-- `decrement` (src/src/index.ts:396-405). -/
def decrement (cfg : Config) (st : Store) (key : Str) : Res (Except Unit Int) :=
  let kn := concatenateKey cfg key
  match rdecr st kn with
  | .ok (v, st') =>
    ⟨.ok v, st', [Cmd.decrC kn], dbg cfg ("CacheXS -> Decrement -> ".toList ++ kn)⟩
  | .error e => ⟨.error e, st, [Cmd.decrC kn], []⟩

/-- `expire` (src/src/index.ts:417-424). -/
def expire (cfg : Config) (st : Store) (key : Str) (expiresIn : Nat) : Res Unit :=
  let kn := concatenateKey cfg key
  ⟨(), rexpire st kn expiresIn, [Cmd.expireC kn expiresIn],
    dbg cfg ("CacheXS -> Expire -> ".toList ++ kn)⟩

/-- `expireNow` (src/src/index.ts:434-441): EXPIRE with ttl 0. -/
def expireNow (cfg : Config) (st : Store) (key : Str) : Res Unit :=
  let kn := concatenateKey cfg key
  ⟨(), rexpire st kn 0, [Cmd.expireC kn 0],
    dbg cfg ("CacheXS -> Expire Now -> ".toList ++ kn)⟩

/-- `ttl` (src/src/index.ts:452-460). -/
def ttl (cfg : Config) (st : Store) (key : Str) : Res Int :=
  let kn := concatenateKey cfg key
  ⟨rttl st kn, st, [Cmd.ttlC kn], dbg cfg ("CacheXS -> TTL -> ".toList ++ kn)⟩

/-- `delete` (src/src/index.ts:472-480). -/
def delete (cfg : Config) (st : Store) (key : Str) : Res Unit :=
  let kn := concatenateKey cfg key
  ⟨(), rdel st kn, [Cmd.delC kn], dbg cfg ("CacheXS -> Delete -> ".toList ++ key)⟩

/-- `deleteMany` (src/src/index.ts:494-506): an empty list returns before
anything (including the debug line); otherwise every key is namespaced and
deleted. -/
def deleteMany (cfg : Config) (st : Store) (keyList : List Str) : Res Unit :=
  if keyList.isEmpty then ⟨(), st, [], []⟩
  else
    let keysWithNamespace := keyList.map (concatenateKey cfg)
    ⟨(), keysWithNamespace.foldl rdel st, keysWithNamespace.map Cmd.delC,
      dbg cfg ("CacheXS -> Delete Multiple".toList)⟩

/-- `clear` (src/src/index.ts:515-525): KEYS on the glob pattern
`namespace:*`, then a DEL per matched key (none when nothing matched);
never a global flush. -/
def clear (cfg : Config) (st : Store) : Res Unit :=
  let pat := cfg.ns ++ [':', '*']
  let matched := rkeys st pat
  let st' := if matched.length > 0 then matched.foldl rdel st else st
  ⟨(), st', Cmd.keysC pat :: matched.map Cmd.delC,
    dbg cfg ("CacheXS -> Clear All Cache".toList)⟩

/-- `keys` (src/src/index.ts:635-649): namespaces the pattern, lists the
matching store keys, and strips the namespace from each reported key. -/
def keys (cfg : Config) (st : Store) (pattern : Str) : Res (List Str) :=
  let pn := concatenateKey cfg pattern
  let matched := rkeys st pn
  ⟨matched.map (decomposeKey cfg), st, [Cmd.keysC pn],
    dbg cfg ("CacheXS -> Keys -> ".toList ++ pattern)⟩

/-- `scan` (src/src/index.ts:588-618): cursor loop over the store's SCAN.
The modelled store completes a scan in a single pass (it returns cursor "0"
with all matches at once — one of the behaviours Redis is allowed), so the
do/while body runs exactly once.  Reported keys are namespace-stripped. -/
def scan (cfg : Config) (st : Store) (pattern : Str) (count : Nat) :
    Res (List Str) :=
  let pn := concatenateKey cfg pattern
  let matched := rkeys st pn
  ⟨matched.map (decomposeKey cfg), st, [Cmd.scanC ['0'] pn count],
    dbg cfg ("CacheXS -> Scan -> ".toList ++ pattern)⟩

/-- `getByPattern` (src/src/index.ts:664-680): resolves the matching keys
via `scan` or `keys`, then fetches each through `get`, associating values to
keys by position. -/
def getByPattern (parse : Str → Option Val) (cfg : Config) (st : Store)
    (pattern : Str) (useScan : Bool) : Res (List (Str × Option Val)) :=
  let rKeys := if useScan then scan cfg st pattern 100 else keys cfg st pattern
  let fetched := rKeys.val.map (fun k => get parse cfg rKeys.store k)
  ⟨rKeys.val.zip (fetched.map Res.val), rKeys.store,
    rKeys.cmds ++ (fetched.map Res.cmds).flatten,
    rKeys.logs ++ (fetched.map Res.logs).flatten ++
      dbg cfg ("CacheXS -> Get By Pattern -> ".toList ++ pattern)⟩

/-- `deleteByPattern` (src/src/index.ts:695-707): resolves the matching keys
via `scan` or `keys`, bulk-deletes them through `deleteMany` when any, and
returns how many keys were targeted. -/
def deleteByPattern (cfg : Config) (st : Store) (pattern : Str)
    (useScan : Bool) : Res Nat :=
  let rKeys := if useScan then scan cfg st pattern 100 else keys cfg st pattern
  if rKeys.val.length > 0 then
    let rDel := deleteMany cfg rKeys.store rKeys.val
    ⟨rKeys.val.length, rDel.store, rKeys.cmds ++ rDel.cmds,
      rKeys.logs ++ rDel.logs ++
        dbg cfg ("CacheXS -> Delete By Pattern -> ".toList ++ pattern)⟩
  else
    ⟨rKeys.val.length, rKeys.store, rKeys.cmds,
      rKeys.logs ++ dbg cfg ("CacheXS -> Delete By Pattern -> ".toList ++ pattern)⟩

/-- A concrete JSON parse agreeing with `JSON.parse` on the payload shapes
used in the closed evaluations below: the three literals, decimal integers,
and simple (escape-free) quoted strings; everything else is a parse error. -/
def jsonParseSimple (s : Str) : Option Val :=
  if s = "null".toList then some .vnull
  else if s = "true".toList then some (.vbool true)
  else if s = "false".toList then some (.vbool false)
  else
    match parseDecInt s with
    | some i => some (.vnum i)
    | none =>
      match s with
      | '"' :: rest =>
        if rest.length ≥ 1 && rest.getLast? = some '"'
            && (rest.dropLast.all fun c => c ≠ '"' && c ≠ '\\') then
          some (.vstr rest.dropLast)
        else none
      | _ => none

/-- A concrete JSON stringify for closed evaluations. -/
def stringifySimple : Val → Str
  | .vnull => "null".toList
  | .vbool true => "true".toList
  | .vbool false => "false".toList
  | .vnum n => intToStr n
  | .vstr s => '"' :: s ++ ['"']
  | .vobj r => r

/-- The caller-observable outcome of an operation: returned value,
resulting store state and store-command trace — everything except the
debug lines. -/
def obs {α : Type} (r : Res α) : α × Store × List Cmd :=
  (r.val, r.store, r.cmds)

/-! ### Helper lemmas about strings and the store model -/

theorem length_eq_zero_iff_nil (l : Str) : l.length = 0 ↔ l = [] :=
  List.length_eq_zero

theorem isPrefixOf_append_self (l t : Str) : l.isPrefixOf (l ++ t) = true := by
  simp [List.isPrefixOf_iff_prefix]

theorem concatenateKey_idem (cfg : Config) (k : Str) :
    concatenateKey cfg (concatenateKey cfg k) = concatenateKey cfg k := by
  unfold concatenateKey
  by_cases h0 : cfg.ns.length = 0
  · simp [h0]
  · by_cases hp : (cfg.ns ++ [':']).isPrefixOf k
    · simp [h0, hp]
    · simp [h0, hp, isPrefixOf_append_self]

theorem replaceFirst_append (c : Char) (cs rest : Str) :
    replaceFirst (c :: cs) ((c :: cs) ++ rest) = rest := by
  have hpre : (c :: cs).isPrefixOf ((c :: cs) ++ rest) = true :=
    isPrefixOf_append_self _ _
  show replaceFirst (c :: cs) (c :: (cs ++ rest)) = rest
  rw [replaceFirst]
  simp only [← List.cons_append, hpre, if_true]
  exact List.drop_left _ _

theorem lookup_rsetE_self (st : Store) (k : Str) (en : Entry) :
    (rsetE st k en).lookup k = some en := by
  induction st with
  | nil => simp [rsetE]
  | cons p rest ih =>
    obtain ⟨a, b⟩ := p
    simp only [rsetE]
    by_cases h : a = k
    · simp [h]
    · rw [if_neg h, List.lookup_cons]
      have hba : (k == a) = false := beq_eq_false_iff_ne.mpr fun e => h e.symm
      rw [hba]
      exact ih

theorem lookup_rsetE_other (st : Store) (k k' : Str) (en : Entry)
    (h : k' ≠ k) : (rsetE st k en).lookup k' = st.lookup k' := by
  have hkk : (k' == k) = false := beq_eq_false_iff_ne.mpr h
  induction st with
  | nil => simp [rsetE, List.lookup_cons, hkk]
  | cons p rest ih =>
    obtain ⟨a, b⟩ := p
    simp only [rsetE]
    by_cases ha : a = k
    · subst ha
      rw [if_pos rfl, List.lookup_cons, List.lookup_cons, hkk]
    · rw [if_neg ha, List.lookup_cons, List.lookup_cons]
      cases hk : (k' == a) with
      | true => rfl
      | false => exact ih

theorem rdel_cons (p : Str × Entry) (rest : Store) (k : Str) :
    rdel (p :: rest) k = if p.1 = k then rdel rest k else p :: rdel rest k := by
  simp only [rdel, List.filter_cons]
  by_cases h : p.1 = k
  · simp [h]
  · simp [h, beq_eq_false_iff_ne.mpr h]

theorem lookup_rdel (st : Store) (k k' : Str) :
    (rdel st k).lookup k' = if k' = k then none else st.lookup k' := by
  induction st with
  | nil => simp [rdel]
  | cons p rest ih =>
    obtain ⟨a, b⟩ := p
    rw [rdel_cons]
    by_cases ha : a = k
    · rw [if_pos ha, ih, List.lookup_cons]
      by_cases hk : k' = k
      · simp [hk]
      · have : (k' == a) = false := beq_eq_false_iff_ne.mpr (ha ▸ hk)
        simp [hk, this]
    · rw [if_neg ha, List.lookup_cons, List.lookup_cons]
      cases hk : (k' == a) with
      | true =>
        have : k' = a := beq_iff_eq.mp hk
        rw [if_neg (this ▸ fun e => ha (by rw [← e]))]
      | false => exact ih

theorem lookup_foldl_rdel (ks : List Str) (st : Store) (k : Str) :
    (ks.foldl rdel st).lookup k = if k ∈ ks then none else st.lookup k := by
  induction ks generalizing st with
  | nil => simp
  | cons a ks ih =>
    simp only [List.foldl_cons]
    rw [ih]
    by_cases hmem : k ∈ ks
    · simp [hmem]
    · rw [lookup_rdel]
      by_cases hka : k = a
      · simp [hka, hmem]
      · simp [hka, hmem]

theorem lookup_eq_none_of_not_mem_keys (st : Store) (k : Str)
    (h : k ∉ st.map Prod.fst) : st.lookup k = none := by
  rw [List.lookup_eq_none_iff]
  intro p hp
  have : p.1 ∈ st.map Prod.fst := List.mem_map_of_mem Prod.fst hp
  have hne : k ≠ p.1 := fun e => h (e ▸ this)
  simpa using hne

theorem mem_rkeys (st : Store) (pat k : Str) :
    k ∈ rkeys st pat ↔ k ∈ st.map Prod.fst ∧ globMatch pat k = true := by
  unfold rkeys
  exact List.mem_filter

theorem concatKey_of_empty (cfg : Config) (k : Str) (h : cfg.ns = []) :
    concatenateKey cfg k = k := by
  simp [concatenateKey, h]

theorem concatKey_of_prefixed (cfg : Config) (k : Str) (h1 : cfg.ns ≠ [])
    (h2 : (cfg.ns ++ [':']) <+: k) : concatenateKey cfg k = k := by
  have hb : (cfg.ns ++ [':']).isPrefixOf k = true :=
    List.isPrefixOf_iff_prefix.mpr h2
  simp [concatenateKey, length_eq_zero_iff_nil, h1, hb]

theorem concatKey_of_unprefixed (cfg : Config) (k : Str) (h1 : cfg.ns ≠ [])
    (h2 : ¬ (cfg.ns ++ [':']) <+: k) :
    concatenateKey cfg k = cfg.ns ++ [':'] ++ k := by
  have hb : ¬ ((cfg.ns ++ [':']).isPrefixOf k = true) := fun hh =>
    h2 (List.isPrefixOf_iff_prefix.mp hh)
  simp [concatenateKey, length_eq_zero_iff_nil, h1, hb]

theorem rget_clear (cfg : Config) (st : Store) (k : Str) :
    rget (clear cfg st).store k =
      if globMatch (cfg.ns ++ [':', '*']) k = true then none else rget st k := by
  have hstore : (clear cfg st).store =
      (if (rkeys st (cfg.ns ++ [':', '*'])).length > 0
        then (rkeys st (cfg.ns ++ [':', '*'])).foldl rdel st else st) := rfl
  rw [hstore]
  by_cases hg : globMatch (cfg.ns ++ [':', '*']) k = true
  · rw [if_pos hg]
    by_cases hmem : k ∈ rkeys st (cfg.ns ++ [':', '*'])
    · have hlen : (rkeys st (cfg.ns ++ [':', '*'])).length > 0 :=
        List.length_pos.mpr (List.ne_nil_of_mem hmem)
      rw [if_pos hlen]
      unfold rget
      rw [lookup_foldl_rdel, if_pos hmem]
      rfl
    · have hnone : st.lookup k = none := by
        apply lookup_eq_none_of_not_mem_keys
        intro hmap
        exact hmem ((mem_rkeys st _ k).mpr ⟨hmap, hg⟩)
      by_cases hlen : (rkeys st (cfg.ns ++ [':', '*'])).length > 0
      · rw [if_pos hlen]
        unfold rget
        rw [lookup_foldl_rdel, if_neg hmem, hnone]
        rfl
      · rw [if_neg hlen]
        unfold rget
        rw [hnone]
        rfl
  · rw [if_neg hg]
    have hmem : k ∉ rkeys st (cfg.ns ++ [':', '*']) := fun hm =>
      hg ((mem_rkeys st _ k).mp hm).2
    by_cases hlen : (rkeys st (cfg.ns ++ [':', '*'])).length > 0
    · rw [if_pos hlen]
      unfold rget
      rw [lookup_foldl_rdel, if_neg hmem]
    · rw [if_neg hlen]

theorem flushAll_not_mem_clear (cfg : Config) (st : Store) :
    Cmd.flushAll ∉ (clear cfg st).cmds := by
  have hc : (clear cfg st).cmds =
      Cmd.keysC (cfg.ns ++ [':', '*'])
        :: (rkeys st (cfg.ns ++ [':', '*'])).map Cmd.delC := rfl
  rw [hc]
  intro hmem
  rcases List.mem_cons.mp hmem with h | h
  · exact Cmd.noConfusion h
  · rcases List.mem_map.mp h with ⟨a, _, ha⟩
    exact Cmd.noConfusion ha

theorem get_store_eq (parse : Str → Option Val) (cfg : Config) (st : Store)
    (k : Str) : (get parse cfg st k).store = st := by
  unfold get
  dsimp only
  split
  · split
    · split <;> rfl
    · rfl
  · rfl

/-! ### The claims -/

/-- Claim C1, counterexample: with the default namespace "cacheXS", a raw
key that already starts with "cacheXS:" is returned unchanged rather than
being prefixed again, so concatenateKey does not prefix regardless of an
existing prefix as the claim states. -/
theorem claim1_counterexample :
    concatenateKey defaultConfig "cacheXS:foo".toList = "cacheXS:foo".toList ∧
    concatenateKey defaultConfig "cacheXS:foo".toList ≠
      "cacheXS:".toList ++ "cacheXS:foo".toList := by
  constructor
  · rfl
  · decide

/-- Claim C1 (amended): for the empty namespace concatenateKey returns the
raw key unchanged; for a non-empty namespace it returns the raw key
unchanged when the key already begins with "ns:", and otherwise returns
"ns:" followed by the raw key.  The function is a pure function of its
arguments. -/
theorem claim1_amended (cfg : Config) (k : Str) :
    (cfg.ns = [] → concatenateKey cfg k = k) ∧
    (cfg.ns ≠ [] → (cfg.ns ++ [':']) <+: k → concatenateKey cfg k = k) ∧
    (cfg.ns ≠ [] → ¬ (cfg.ns ++ [':']) <+: k →
      concatenateKey cfg k = cfg.ns ++ [':'] ++ k) :=
  ⟨concatKey_of_empty cfg k, concatKey_of_prefixed cfg k,
    concatKey_of_unprefixed cfg k⟩

/-- Witness for claim C1's amended theorem at namespace "ns" and raw key
"k", which does not start with "ns:". -/
theorem claim1_witness :
    concatenateKey ⟨"ns".toList, 300, false⟩ "k".toList =
      "ns".toList ++ [':'] ++ "k".toList :=
  (claim1_amended ⟨"ns".toList, 300, false⟩ "k".toList).2.2
    (by decide) (by decide)

/-- Claim C2, counterexample: with namespace "cacheXS" and the raw key
"cacheXS:foo" (which already begins with the namespace prefix),
composing and then decomposing yields "foo", not the original raw key. -/
theorem claim2_counterexample :
    decomposeKey defaultConfig
        (concatenateKey defaultConfig "cacheXS:foo".toList) ≠
      "cacheXS:foo".toList := by
  decide

/-- Claim C2 (amended): for every non-empty namespace and every raw key
that does not already begin with "ns:", stripping the namespace from the
composed key recovers the raw key. -/
theorem claim2_amended (cfg : Config) (k : Str) (h1 : cfg.ns ≠ [])
    (h2 : ¬ (cfg.ns ++ [':']) <+: k) :
    decomposeKey cfg (concatenateKey cfg k) = k := by
  rw [concatKey_of_unprefixed cfg k h1 h2]
  unfold decomposeKey
  have hlen : cfg.ns.length > 0 :=
    List.length_pos.mpr h1
  rw [if_pos hlen]
  obtain ⟨c, cs, hcs⟩ : ∃ c cs, cfg.ns ++ [':'] = c :: cs := by
    cases hns : cfg.ns with
    | nil => exact absurd hns h1
    | cons c cs => exact ⟨c, cs ++ [':'], by simp⟩
  rw [hcs]
  exact replaceFirst_append c cs k

/-- Witness for claim C2's amended theorem at namespace "ns" and raw key
"k". -/
theorem claim2_witness :
    decomposeKey ⟨"ns".toList, 300, false⟩
        (concatenateKey ⟨"ns".toList, 300, false⟩ "k".toList) = "k".toList :=
  claim2_amended ⟨"ns".toList, 300, false⟩ "k".toList (by decide) (by decide)

/-- Claim C10: concatenateKey is idempotent, which is what makes the
library's internal double-namespacing (getOrSet, getOrSetForever and
setIfNotExists passing an already-namespaced key back into get/exists)
benign. -/
theorem claim10_confirmed (cfg : Config) (k : Str) :
    concatenateKey cfg (concatenateKey cfg k) = concatenateKey cfg k :=
  concatenateKey_idem cfg k

/-- Claim C3, counterexample: on a store where the key is present,
setIfNotExists returns the string "EXIST", not "EXISTS" as the claim
states; and on an absent key the issued command trace is a separate
EXISTS followed by a plain SET — two commands from this layer, not one
store-level conditional operation. -/
theorem claim3_counterexample :
    (setIfNotExists stringifySimple defaultConfig
        [("cacheXS:k".toList, ⟨"bar".toList, some 10⟩)]
        "k".toList (.vstr "zoo".toList) 300).val ≠ some "EXISTS".toList ∧
    (setIfNotExists stringifySimple defaultConfig []
        "k".toList (.vstr "zoo".toList) 300).cmds =
      [Cmd.existsC "cacheXS:k".toList,
       Cmd.setExC "cacheXS:k".toList "zoo".toList 300] := by
  decide

/-- Claim C3 (amended): for every key present in the store,
setIfNotExists returns the string "EXIST" and leaves the store unchanged
(having issued only an EXISTS command); for every absent key it stores the
serialised value with the given expiry and returns "OK", and the issued
trace is a separate store-level existence check followed by a plain
expiring set — a check-then-set from this layer, not a single store-level
conditional operation. -/
theorem claim3_amended (stringify : Val → Str) (cfg : Config) (st : Store)
    (k : Str) (v : Val) (e : Nat) :
    ((rget st (concatenateKey cfg k)).isSome = true →
      (setIfNotExists stringify cfg st k v e).val = some "EXIST".toList ∧
      (setIfNotExists stringify cfg st k v e).store = st ∧
      (setIfNotExists stringify cfg st k v e).cmds =
        [Cmd.existsC (concatenateKey cfg k)]) ∧
    ((rget st (concatenateKey cfg k)).isSome = false →
      (setIfNotExists stringify cfg st k v e).val = some "OK".toList ∧
      (setIfNotExists stringify cfg st k v e).store.lookup
          (concatenateKey cfg k) =
        some ⟨serializeSet stringify v, some e⟩ ∧
      (∀ k', k' ≠ concatenateKey cfg k →
        rget (setIfNotExists stringify cfg st k v e).store k' = rget st k') ∧
      (setIfNotExists stringify cfg st k v e).cmds =
        [Cmd.existsC (concatenateKey cfg k),
         Cmd.setExC (concatenateKey cfg k) (serializeSet stringify v) e]) := by
  have hid := concatenateKey_idem cfg k
  constructor
  · intro hex
    unfold setIfNotExists existsQ
    dsimp only
    rw [hid, hex]
    exact ⟨rfl, rfl, rfl⟩
  · intro habs
    unfold setIfNotExists existsQ set
    dsimp only
    rw [hid, habs, if_neg Bool.false_ne_true]
    refine ⟨rfl, ?_, ?_, rfl⟩
    · exact lookup_rsetE_self st (concatenateKey cfg k) _
    · intro k' hk'
      unfold rget
      rw [lookup_rsetE_other st (concatenateKey cfg k) k' _ hk']

/-- Witness for claim C3's amended theorem: a present key yields "EXIST",
an absent key yields "OK". -/
theorem claim3_witness :
    (setIfNotExists stringifySimple defaultConfig
        [("cacheXS:k".toList, ⟨"bar".toList, some 10⟩)]
        "k".toList (.vstr "zoo".toList) 300).val = some "EXIST".toList ∧
    (setIfNotExists stringifySimple defaultConfig []
        "k".toList (.vstr "zoo".toList) 300).val = some "OK".toList := by
  constructor
  · exact ((claim3_amended stringifySimple defaultConfig
      [("cacheXS:k".toList, ⟨"bar".toList, some 10⟩)]
      "k".toList (.vstr "zoo".toList) 300).1 (by decide)).1
  · exact ((claim3_amended stringifySimple defaultConfig []
      "k".toList (.vstr "zoo".toList) 300).2 (by decide)).1

/-- Claim C4: the claim is right and the code is wrong.  On an absent key
getOrSetForever does return the fallback, but it writes it through set()
with the instance's default expiry (here 300 seconds) instead of
setForever(), so a subsequent ttl reports 300, not the no-expiry sentinel
-1 — contradicting the function's own name and its debug/documentation
text "Set (Forever)". -/
theorem claim4_code_bug :
    (getOrSetForever jsonParseSimple stringifySimple defaultConfig []
        "k".toList (.vstr "v".toList)).val = .vstr "v".toList ∧
    (ttl defaultConfig
        (getOrSetForever jsonParseSimple stringifySimple defaultConfig []
          "k".toList (.vstr "v".toList)).store "k".toList).val = 300 ∧
    (300 : Int) ≠ -1 := by
  refine ⟨by decide, by decide, by decide⟩

/-- Claim C5, counterexample: the key "k" is present with stored payload
"0", which deserialises to the number 0; the claim says getOrSet returns
the existing 0 and does not write, but the code (a JavaScript truthiness
check) stores the fallback 5 and returns it. -/
theorem claim5_counterexample :
    (getOrSet jsonParseSimple stringifySimple defaultConfig
        [("cacheXS:k".toList, ⟨"0".toList, none⟩)]
        "k".toList (.vnum 5) 300).val = .vnum 5 ∧
    (getOrSet jsonParseSimple stringifySimple defaultConfig
        [("cacheXS:k".toList, ⟨"0".toList, none⟩)]
        "k".toList (.vnum 5) 300).store ≠
      [("cacheXS:k".toList, ⟨"0".toList, none⟩)] := by
  decide

/-- Claim C5 (amended): getOrSet returns the existing value without
writing only when that value deserialises to a truthy one; when the key is
absent or its value deserialises to a falsy value (0, false, null, or the
empty string), it stores the serialised fallback with the given expiry and
returns the fallback. -/
theorem claim5_amended (parse : Str → Option Val) (stringify : Val → Str)
    (cfg : Config) (st : Store) (k : Str) (v : Val) (e : Nat) :
    (∀ w, (get parse cfg st (concatenateKey cfg k)).val = some w →
      truthyVal w = true →
      (getOrSet parse stringify cfg st k v e).val = w ∧
      (getOrSet parse stringify cfg st k v e).store = st) ∧
    (truthyOpt (get parse cfg st (concatenateKey cfg k)).val = false →
      (getOrSet parse stringify cfg st k v e).val = v ∧
      (getOrSet parse stringify cfg st k v e).store.lookup
          (concatenateKey cfg k) =
        some ⟨serializeSet stringify v, some e⟩ ∧
      (∀ k', k' ≠ concatenateKey cfg k →
        rget (getOrSet parse stringify cfg st k v e).store k' = rget st k')) := by
  constructor
  · intro w hw htruthy
    unfold getOrSet
    dsimp only
    rw [hw]
    dsimp only
    rw [htruthy]
    exact ⟨rfl, get_store_eq parse cfg st _⟩
  · intro hfalsy
    rcases hg : (get parse cfg st (concatenateKey cfg k)).val with _ | w
    · unfold getOrSet set
      dsimp only
      rw [hg]
      try dsimp only
      rw [get_store_eq parse cfg st]
      refine ⟨rfl, ?_, ?_⟩
      · exact lookup_rsetE_self st (concatenateKey cfg k) _
      · intro k' hk'
        unfold rget
        rw [lookup_rsetE_other st (concatenateKey cfg k) k' _ hk']
    · rw [hg] at hfalsy
      have hfw : truthyVal w = false := hfalsy
      unfold getOrSet set
      dsimp only
      rw [hg]
      try dsimp only
      rw [hfw, if_neg Bool.false_ne_true]
      try dsimp only
      rw [get_store_eq parse cfg st]
      refine ⟨rfl, ?_, ?_⟩
      · exact lookup_rsetE_self st (concatenateKey cfg k) _
      · intro k' hk'
        unfold rget
        rw [lookup_rsetE_other st (concatenateKey cfg k) k' _ hk']

/-- Witness for claim C5's amended theorem: a truthy stored value ("bar")
is returned unchanged without a write; an absent key gets the fallback. -/
theorem claim5_witness :
    ((getOrSet jsonParseSimple stringifySimple defaultConfig
        [("cacheXS:k".toList, ⟨"bar".toList, some 10⟩)]
        "k".toList (.vnum 5) 300).val = .vstr "bar".toList ∧
      (getOrSet jsonParseSimple stringifySimple defaultConfig
        [("cacheXS:k".toList, ⟨"bar".toList, some 10⟩)]
        "k".toList (.vnum 5) 300).store =
          [("cacheXS:k".toList, ⟨"bar".toList, some 10⟩)]) ∧
    (getOrSet jsonParseSimple stringifySimple defaultConfig []
        "k".toList (.vnum 5) 300).val = .vnum 5 := by
  constructor
  · exact (claim5_amended jsonParseSimple stringifySimple defaultConfig
      [("cacheXS:k".toList, ⟨"bar".toList, some 10⟩)]
      "k".toList (.vnum 5) 300).1 (.vstr "bar".toList) (by decide) (by decide)
  · exact ((claim5_amended jsonParseSimple stringifySimple defaultConfig []
      "k".toList (.vnum 5) 300).2 (by decide)).1

/-- Claim C6: get never fails on a malformed non-empty payload — when the
store holds a non-empty payload on which the JSON decode fails, get
returns the raw payload as a string; and when the store has no entry for
the key, get returns null. -/
theorem claim6_confirmed (parse : Str → Option Val) (cfg : Config)
    (st : Store) (k : Str) :
    (∀ raw, rget st (concatenateKey cfg k) = some raw → raw ≠ [] →
      parse raw = none → (get parse cfg st k).val = some (.vstr raw)) ∧
    (rget st (concatenateKey cfg k) = none →
      (get parse cfg st k).val = none) := by
  constructor
  · intro raw hr hne hp
    unfold get
    dsimp only
    rw [hr]
    have hie : raw.isEmpty = false := by
      cases raw with
      | nil => exact absurd rfl hne
      | cons c cs => rfl
    try dsimp only
    rw [hie]
    try dsimp only
    rw [hp]
    rfl
  · intro hr
    unfold get
    dsimp only
    rw [hr]

/-- Witness for claim C6: the payload "bar" is not JSON and comes back as
the raw string; a key with no entry yields null. -/
theorem claim6_witness :
    (get jsonParseSimple defaultConfig
        [("cacheXS:k".toList, ⟨"bar".toList, some 10⟩)] "k".toList).val =
      some (.vstr "bar".toList) ∧
    (get jsonParseSimple defaultConfig [] "k2".toList).val = none := by
  constructor
  · exact (claim6_confirmed jsonParseSimple defaultConfig
      [("cacheXS:k".toList, ⟨"bar".toList, some 10⟩)] "k".toList).1
      "bar".toList (by decide) (by decide) (by decide)
  · exact (claim6_confirmed jsonParseSimple defaultConfig [] "k2".toList).2
      (by decide)

/-- Claim C7: clear deletes exactly the keys matching the glob pattern
"ns:*" — after clear, looking up any key matching the pattern yields
nothing while any other key reads exactly as before — and its command
trace never contains a global store flush. -/
theorem claim7_confirmed (cfg : Config) (st : Store) (k : Str) :
    rget (clear cfg st).store k =
      (if globMatch (cfg.ns ++ [':', '*']) k = true then none
        else rget st k) ∧
    Cmd.flushAll ∉ (clear cfg st).cmds :=
  ⟨rget_clear cfg st k, flushAll_not_mem_clear cfg st⟩

/-- Claim C8, counterexample: the wholly defaulted constructor yields
namespace "cacheXS", not "cache" as the claim states. -/
theorem claim8_counterexample :
    (mkCacheXS ⟨none, none, none⟩).ns ≠ "cache".toList := by
  decide

/-- Claim C8 (amended): an instance constructed with no configuration
options has namespace "cacheXS", default expiry 300 seconds, and debug
disabled. -/
theorem claim8_amended :
    (mkCacheXS ⟨none, none, none⟩).ns = "cacheXS".toList ∧
    (mkCacheXS ⟨none, none, none⟩).expiresIn = 300 ∧
    (mkCacheXS ⟨none, none, none⟩).enableDebug = false :=
  ⟨rfl, rfl, rfl⟩

/-! ### Debug-flag noninterference: helper lemmas, one per operation.
Each states that the caller-observable outcome (`obs`: value, store state,
command trace) of the operation is the same whatever the debug flag is. -/

theorem get_obs (parse : Str → Option Val) (n : Str) (ei : Nat)
    (b b' : Bool) (st : Store) (k : Str) :
    obs (get parse ⟨n, ei, b⟩ st k) = obs (get parse ⟨n, ei, b'⟩ st k) := by
  unfold get obs
  dsimp only [concatenateKey]
  split
  · split
    · split <;> rfl
    · rfl
  · rfl

theorem get_val_eq (parse : Str → Option Val) (n : Str) (ei : Nat)
    (b b' : Bool) (st : Store) (k : Str) :
    (get parse ⟨n, ei, b⟩ st k).val = (get parse ⟨n, ei, b'⟩ st k).val :=
  congrArg Prod.fst (get_obs parse n ei b b' st k)

theorem get_cmds_eq (parse : Str → Option Val) (cfg : Config) (st : Store)
    (k : Str) :
    (get parse cfg st k).cmds = [Cmd.getC (concatenateKey cfg k)] := by
  unfold get
  dsimp only
  split
  · split
    · split <;> rfl
    · rfl
  · rfl

theorem set_obs (stringify : Val → Str) (n : Str) (ei : Nat) (b b' : Bool)
    (st : Store) (k : Str) (v : Val) (e : Nat) :
    obs (set stringify ⟨n, ei, b⟩ st k v e) =
      obs (set stringify ⟨n, ei, b'⟩ st k v e) := rfl

theorem setForever_obs (stringify : Val → Str) (n : Str) (ei : Nat)
    (b b' : Bool) (st : Store) (k : Str) (v : Val) :
    obs (setForever stringify ⟨n, ei, b⟩ st k v) =
      obs (setForever stringify ⟨n, ei, b'⟩ st k v) := rfl

theorem existsQ_obs (n : Str) (ei : Nat) (b b' : Bool) (st : Store) (k : Str) :
    obs (existsQ ⟨n, ei, b⟩ st k) = obs (existsQ ⟨n, ei, b'⟩ st k) := rfl

theorem missing_obs (n : Str) (ei : Nat) (b b' : Bool) (st : Store) (k : Str) :
    obs (missing ⟨n, ei, b⟩ st k) = obs (missing ⟨n, ei, b'⟩ st k) := rfl

theorem expire_obs (n : Str) (ei : Nat) (b b' : Bool) (st : Store) (k : Str)
    (e : Nat) :
    obs (expire ⟨n, ei, b⟩ st k e) = obs (expire ⟨n, ei, b'⟩ st k e) := rfl

theorem expireNow_obs (n : Str) (ei : Nat) (b b' : Bool) (st : Store)
    (k : Str) :
    obs (expireNow ⟨n, ei, b⟩ st k) = obs (expireNow ⟨n, ei, b'⟩ st k) := rfl

theorem ttl_obs (n : Str) (ei : Nat) (b b' : Bool) (st : Store) (k : Str) :
    obs (ttl ⟨n, ei, b⟩ st k) = obs (ttl ⟨n, ei, b'⟩ st k) := rfl

theorem delete_obs (n : Str) (ei : Nat) (b b' : Bool) (st : Store) (k : Str) :
    obs (delete ⟨n, ei, b⟩ st k) = obs (delete ⟨n, ei, b'⟩ st k) := rfl

theorem keys_obs (n : Str) (ei : Nat) (b b' : Bool) (st : Store) (pat : Str) :
    obs (keys ⟨n, ei, b⟩ st pat) = obs (keys ⟨n, ei, b'⟩ st pat) := rfl

theorem scan_obs (n : Str) (ei : Nat) (b b' : Bool) (st : Store) (pat : Str)
    (cnt : Nat) :
    obs (scan ⟨n, ei, b⟩ st pat cnt) = obs (scan ⟨n, ei, b'⟩ st pat cnt) := rfl

theorem clear_obs (n : Str) (ei : Nat) (b b' : Bool) (st : Store) :
    obs (clear ⟨n, ei, b⟩ st) = obs (clear ⟨n, ei, b'⟩ st) := rfl

theorem deleteMany_obs (n : Str) (ei : Nat) (b b' : Bool) (st : Store)
    (ks : List Str) :
    obs (deleteMany ⟨n, ei, b⟩ st ks) = obs (deleteMany ⟨n, ei, b'⟩ st ks) := by
  unfold deleteMany obs
  dsimp only
  split <;> rfl

theorem setIfNotExists_obs (stringify : Val → Str) (n : Str) (ei : Nat)
    (b b' : Bool) (st : Store) (k : Str) (v : Val) (e : Nat) :
    obs (setIfNotExists stringify ⟨n, ei, b⟩ st k v e) =
      obs (setIfNotExists stringify ⟨n, ei, b'⟩ st k v e) := by
  have hA : concatenateKey ⟨n, ei, b⟩ = concatenateKey ⟨n, ei, b'⟩ := rfl
  unfold setIfNotExists existsQ set obs
  rw [hA]
  dsimp only
  split <;> rfl

theorem increment_obs (n : Str) (ei : Nat) (b b' : Bool) (st : Store)
    (k : Str) :
    obs (increment ⟨n, ei, b⟩ st k) = obs (increment ⟨n, ei, b'⟩ st k) := by
  have hA : concatenateKey ⟨n, ei, b⟩ = concatenateKey ⟨n, ei, b'⟩ := rfl
  unfold increment obs
  rw [hA]
  dsimp only
  split <;> rfl

theorem decrement_obs (n : Str) (ei : Nat) (b b' : Bool) (st : Store)
    (k : Str) :
    obs (decrement ⟨n, ei, b⟩ st k) = obs (decrement ⟨n, ei, b'⟩ st k) := by
  have hA : concatenateKey ⟨n, ei, b⟩ = concatenateKey ⟨n, ei, b'⟩ := rfl
  unfold decrement obs
  rw [hA]
  dsimp only
  split <;> rfl

theorem get_cmds_congr (parse : Str → Option Val) (n : Str) (ei : Nat)
    (b b' : Bool) (st : Store) (k : Str) :
    (get parse ⟨n, ei, b⟩ st k).cmds = (get parse ⟨n, ei, b'⟩ st k).cmds :=
  congrArg (fun t => t.2.2) (get_obs parse n ei b b' st k)

theorem getOrSet_obs (parse : Str → Option Val) (stringify : Val → Str)
    (n : Str) (ei : Nat) (b b' : Bool) (st : Store) (k : Str) (v : Val)
    (e : Nat) :
    obs (getOrSet parse stringify ⟨n, ei, b⟩ st k v e) =
      obs (getOrSet parse stringify ⟨n, ei, b'⟩ st k v e) := by
  have hA : concatenateKey ⟨n, ei, b⟩ = concatenateKey ⟨n, ei, b'⟩ := rfl
  have hval := get_val_eq parse n ei b b' st (concatenateKey ⟨n, ei, b'⟩ k)
  have hstL := get_store_eq parse ⟨n, ei, b⟩ st (concatenateKey ⟨n, ei, b'⟩ k)
  have hstR := get_store_eq parse ⟨n, ei, b'⟩ st (concatenateKey ⟨n, ei, b'⟩ k)
  have hcm := get_cmds_congr parse n ei b b' st (concatenateKey ⟨n, ei, b'⟩ k)
  unfold getOrSet set obs
  rw [hA]
  dsimp only
  rw [hval, hstL, hstR, hcm]
  split
  · split <;> rfl
  · rfl

theorem getOrSetForever_obs (parse : Str → Option Val) (stringify : Val → Str)
    (n : Str) (ei : Nat) (b b' : Bool) (st : Store) (k : Str) (v : Val) :
    obs (getOrSetForever parse stringify ⟨n, ei, b⟩ st k v) =
      obs (getOrSetForever parse stringify ⟨n, ei, b'⟩ st k v) := by
  have hA : concatenateKey ⟨n, ei, b⟩ = concatenateKey ⟨n, ei, b'⟩ := rfl
  have hval := get_val_eq parse n ei b b' st (concatenateKey ⟨n, ei, b'⟩ k)
  have hstL := get_store_eq parse ⟨n, ei, b⟩ st (concatenateKey ⟨n, ei, b'⟩ k)
  have hstR := get_store_eq parse ⟨n, ei, b'⟩ st (concatenateKey ⟨n, ei, b'⟩ k)
  have hcm := get_cmds_congr parse n ei b b' st (concatenateKey ⟨n, ei, b'⟩ k)
  unfold getOrSetForever set obs
  rw [hA]
  dsimp only
  rw [hval, hstL, hstR, hcm]
  split
  · split <;> rfl
  · rfl

theorem getByPattern_obs (parse : Str → Option Val) (n : Str) (ei : Nat)
    (b b' : Bool) (st : Store) (pat : Str) (useScan : Bool) :
    obs (getByPattern parse ⟨n, ei, b⟩ st pat useScan) =
      obs (getByPattern parse ⟨n, ei, b'⟩ st pat useScan) := by
  have hA : concatenateKey ⟨n, ei, b⟩ = concatenateKey ⟨n, ei, b'⟩ := rfl
  have hD : decomposeKey ⟨n, ei, b⟩ = decomposeKey ⟨n, ei, b'⟩ := rfl
  unfold getByPattern scan keys obs
  rw [hA, hD]
  cases useScan <;>
    · dsimp only
      simp only [Prod.mk.injEq]
      refine ⟨?_, rfl, ?_⟩
      · refine congrArg _ ?_
        rw [List.map_map, List.map_map]
        exact List.map_congr_left fun a _ => get_val_eq parse n ei b b' st a
      · refine congrArg _ (congrArg _ ?_)
        rw [List.map_map, List.map_map]
        exact List.map_congr_left fun a _ => get_cmds_congr parse n ei b b' st a

theorem deleteByPattern_obs (n : Str) (ei : Nat) (b b' : Bool) (st : Store)
    (pat : Str) (useScan : Bool) :
    obs (deleteByPattern ⟨n, ei, b⟩ st pat useScan) =
      obs (deleteByPattern ⟨n, ei, b'⟩ st pat useScan) := by
  have hA : concatenateKey ⟨n, ei, b⟩ = concatenateKey ⟨n, ei, b'⟩ := rfl
  unfold deleteByPattern deleteMany obs
  cases useScan
  case false =>
    have hv : (keys ⟨n, ei, b⟩ st pat).val = (keys ⟨n, ei, b'⟩ st pat).val := rfl
    have hs : (keys ⟨n, ei, b⟩ st pat).store =
      (keys ⟨n, ei, b'⟩ st pat).store := rfl
    have hc : (keys ⟨n, ei, b⟩ st pat).cmds =
      (keys ⟨n, ei, b'⟩ st pat).cmds := rfl
    dsimp only
    rw [if_neg Bool.false_ne_true]
    rw [if_neg Bool.false_ne_true]
    rw [hv, hs, hc, hA]
    split
    · split <;> rfl
    · rfl
  case true =>
    have hv : (scan ⟨n, ei, b⟩ st pat 100).val =
      (scan ⟨n, ei, b'⟩ st pat 100).val := rfl
    have hs : (scan ⟨n, ei, b⟩ st pat 100).store =
      (scan ⟨n, ei, b'⟩ st pat 100).store := rfl
    have hc : (scan ⟨n, ei, b⟩ st pat 100).cmds =
      (scan ⟨n, ei, b'⟩ st pat 100).cmds := rfl
    dsimp only
    rw [if_pos rfl]
    rw [if_pos rfl]
    rw [hv, hs, hc, hA]
    split
    · split <;> rfl
    · rfl

/-- Claim C9: for every operation of the public API (get, set, setForever,
setIfNotExists, getOrSet, getOrSetForever, increment, decrement, expire,
expireNow, ttl, delete, deleteMany, clear, exists, missing, keys, scan,
getByPattern, deleteByPattern) and every store state, the returned value,
the resulting store state and the store-command trace are identical
whether the debug flag is enabled or disabled: debug mode only changes the
emitted trace lines. -/
theorem claim9_confirmed (parse : Str → Option Val) (stringify : Val → Str)
    (cfg : Config) (b₁ b₂ : Bool) (st : Store) (k pat : Str) (ks : List Str)
    (v : Val) (e cnt : Nat) (useScan : Bool) :
    obs (get parse {cfg with enableDebug := b₁} st k) =
      obs (get parse {cfg with enableDebug := b₂} st k) ∧
    obs (set stringify {cfg with enableDebug := b₁} st k v e) =
      obs (set stringify {cfg with enableDebug := b₂} st k v e) ∧
    obs (setForever stringify {cfg with enableDebug := b₁} st k v) =
      obs (setForever stringify {cfg with enableDebug := b₂} st k v) ∧
    obs (setIfNotExists stringify {cfg with enableDebug := b₁} st k v e) =
      obs (setIfNotExists stringify {cfg with enableDebug := b₂} st k v e) ∧
    obs (getOrSet parse stringify {cfg with enableDebug := b₁} st k v e) =
      obs (getOrSet parse stringify {cfg with enableDebug := b₂} st k v e) ∧
    obs (getOrSetForever parse stringify {cfg with enableDebug := b₁} st k v) =
      obs (getOrSetForever parse stringify {cfg with enableDebug := b₂} st k v) ∧
    obs (increment {cfg with enableDebug := b₁} st k) =
      obs (increment {cfg with enableDebug := b₂} st k) ∧
    obs (decrement {cfg with enableDebug := b₁} st k) =
      obs (decrement {cfg with enableDebug := b₂} st k) ∧
    obs (expire {cfg with enableDebug := b₁} st k e) =
      obs (expire {cfg with enableDebug := b₂} st k e) ∧
    obs (expireNow {cfg with enableDebug := b₁} st k) =
      obs (expireNow {cfg with enableDebug := b₂} st k) ∧
    obs (ttl {cfg with enableDebug := b₁} st k) =
      obs (ttl {cfg with enableDebug := b₂} st k) ∧
    obs (delete {cfg with enableDebug := b₁} st k) =
      obs (delete {cfg with enableDebug := b₂} st k) ∧
    obs (deleteMany {cfg with enableDebug := b₁} st ks) =
      obs (deleteMany {cfg with enableDebug := b₂} st ks) ∧
    obs (clear {cfg with enableDebug := b₁} st) =
      obs (clear {cfg with enableDebug := b₂} st) ∧
    obs (existsQ {cfg with enableDebug := b₁} st k) =
      obs (existsQ {cfg with enableDebug := b₂} st k) ∧
    obs (missing {cfg with enableDebug := b₁} st k) =
      obs (missing {cfg with enableDebug := b₂} st k) ∧
    obs (keys {cfg with enableDebug := b₁} st pat) =
      obs (keys {cfg with enableDebug := b₂} st pat) ∧
    obs (scan {cfg with enableDebug := b₁} st pat cnt) =
      obs (scan {cfg with enableDebug := b₂} st pat cnt) ∧
    obs (getByPattern parse {cfg with enableDebug := b₁} st pat useScan) =
      obs (getByPattern parse {cfg with enableDebug := b₂} st pat useScan) ∧
    obs (deleteByPattern {cfg with enableDebug := b₁} st pat useScan) =
      obs (deleteByPattern {cfg with enableDebug := b₂} st pat useScan) := by
  obtain ⟨n, ei, b⟩ := cfg
  exact ⟨get_obs parse n ei b₁ b₂ st k,
    set_obs stringify n ei b₁ b₂ st k v e,
    setForever_obs stringify n ei b₁ b₂ st k v,
    setIfNotExists_obs stringify n ei b₁ b₂ st k v e,
    getOrSet_obs parse stringify n ei b₁ b₂ st k v e,
    getOrSetForever_obs parse stringify n ei b₁ b₂ st k v,
    increment_obs n ei b₁ b₂ st k,
    decrement_obs n ei b₁ b₂ st k,
    expire_obs n ei b₁ b₂ st k e,
    expireNow_obs n ei b₁ b₂ st k,
    ttl_obs n ei b₁ b₂ st k,
    delete_obs n ei b₁ b₂ st k,
    deleteMany_obs n ei b₁ b₂ st ks,
    clear_obs n ei b₁ b₂ st,
    existsQ_obs n ei b₁ b₂ st k,
    missing_obs n ei b₁ b₂ st k,
    keys_obs n ei b₁ b₂ st pat,
    scan_obs n ei b₁ b₂ st pat cnt,
    getByPattern_obs parse n ei b₁ b₂ st pat useScan,
    deleteByPattern_obs n ei b₁ b₂ st pat useScan⟩

end CacheXS
